import Mathlib

/-
Verification of the daily-task-log submission pipeline (src/app.py).

The embedding is shallow: Python dictionaries holding form fields become
Lean structures with `Option` fields (`none` models a missing key or a
Python `None`), the imperative `errors.append` sequence of `validate`
becomes list concatenation in program order, and the remote calls of the
retry loop become an oracle `Nat → CallResult α` giving the outcome of
each attempt.
-/

namespace DailyLog

/-- Python `str.strip()`: removes leading and trailing whitespace.
Defined structurally over the character list so that it evaluates by
kernel reduction (the ASCII whitespace set of `Char.isWhitespace` stands
in for Python whitespace). -/
def pyStrip (s : String) : String :=
  ⟨((s.data.dropWhile Char.isWhitespace).reverse.dropWhile
      Char.isWhitespace).reverse⟩

/-- Python `str.lower()`, character by character. -/
def pyLower (s : String) : String :=
  ⟨s.data.map Char.toLower⟩

/-- Configured quantity lower bound (src/app.py line 25). -/
def QTY_MIN : Int := 1

/-- Configured quantity upper bound (src/app.py line 26). -/
def QTY_MAX : Int := 200

/-- A task-entry dictionary as `validate` sees it (src/app.py lines 179-198).
Every field is read defensively with `dict.get`, so each field is an
`Option`: `none` models a missing key or a `None` value; for `quantity`,
`none` also models a value `int(...)` fails to parse, since the code
coerces all of those to 0 through the `except` branch. -/
structure RawEntry where
  task_category : Option String
  quantity : Option Int
  client_notes : Option String
  task_other_text : Option String
deriving DecidableEq, Repr

/-- A task entry of the form state, as created by `reset_form` (src/app.py
lines 219-224) and `add_task_row` (lines 286-289): all four keys present,
`quantity` an integer. -/
structure TaskEntry where
  task_category : String
  quantity : Int
  client_notes : String
  task_other_text : String
deriving DecidableEq, Repr

/-- View of a form-state entry as the dictionary `validate` receives. -/
def TaskEntry.toRaw (t : TaskEntry) : RawEntry :=
  { task_category := some t.task_category
    quantity := some t.quantity
    client_notes := some t.client_notes
    task_other_text := some t.task_other_text }

/-- The error messages one entry of the loop body of `validate` appends
(src/app.py lines 179-198), in program order: category, quantity lower
bound, quantity upper bound, client notes, description for Other.
`idx` is the 1-based index from `enumerate(tasks, start=1)`. -/
def entryErrors (idx : Nat) (t : RawEntry) : List String :=
  let task_cat := pyStrip (t.task_category.getD "")
  let client_notes := pyStrip (t.client_notes.getD "")
  let other_text := pyStrip (t.task_other_text.getD "")
  let qty := t.quantity.getD 0
  (if task_cat = "" then [s!"Task {idx}: task category is required."] else [])
  ++ (if qty < QTY_MIN then [s!"Task {idx}: quantity must be at least {QTY_MIN}."] else [])
  ++ (if qty > QTY_MAX then [s!"Task {idx}: quantity must be {QTY_MAX} or less."] else [])
  ++ (if client_notes.length < 3 then [s!"Task {idx}: Client / Project is required (min 3 characters)."] else [])
  ++ (if task_cat = "Other" ∧ other_text.length < 3 then
        [s!"Task {idx}: description is required for \x27Other\x27 (min 3 characters)."] else [])

/-- The errors collected by the `for idx, t in enumerate(tasks, start=1)`
loop of `validate`, starting at 1-based index `k`. -/
def tasksErrors (k : Nat) : List RawEntry → List String
  | [] => []
  | t :: rest => entryErrors k t ++ tasksErrors (k + 1) rest

/-- `validate(employee, tasks)` (src/app.py lines 168-200). The employee
argument is optional (the code guards with `or ""`); returns the ordered
list of error messages, empty meaning valid. -/
def validate (employee : Option String) (tasks : List RawEntry) : List String :=
  let emp := pyStrip (employee.getD "")
  let nameErrs := if emp = "" then ["Name is required."] else []
  if tasks = [] then nameErrs ++ ["At least one task is required."]
  else nameErrs ++ tasksErrors 1 tasks

/-- The comprehension `[x.strip() for x in col if x.strip()]`
(src/app.py line 121): trim every cell, keep the non-blank results in
source order. -/
def trimmedColumn (col : List String) : List String :=
  col.filterMap (fun x => if pyStrip x = "" then none else some (pyStrip x))

/-- `load_task_options_cached` (src/app.py lines 111-128), abstracted over
the column-A cells `col` it reads from the Config tab: trim every cell,
drop the blanks, fail if nothing remains, append "Other" when absent. -/
def load_task_options (tab_config : String) (col : List String) :
    Except String (List String) :=
  let tasks := trimmedColumn col
  if tasks = [] then
    Except.error (s!"No tasks found in \x27{tab_config}\x27 column A.")
  else if "Other" ∈ tasks then Except.ok tasks
  else Except.ok (tasks ++ ["Other"])

/-- Tests that the first character list is an initial segment of the
second. Used to embed the Python substring test `in`. -/
def charsPrefix : List Char → List Char → Bool
  | [], _ => true
  | _ :: _, [] => false
  | a :: as, b :: bs => a == b && charsPrefix as bs

/-- True when the character list `needle` occurs contiguously inside the
second list; the embedding of Python `needle in hay` on strings. -/
def charsContain (needle : List Char) : List Char → Bool
  | [] => charsPrefix needle []
  | b :: bs => charsPrefix needle (b :: bs) || charsContain needle bs

/-- Python `needle in hay` for strings. -/
def strContains (hay needle : String) : Bool :=
  charsContain needle.toList hay.toList

/-- `_is_rate_limit_error` (src/app.py lines 72-74): classifies an error
by its message text. -/
def is_rate_limit_error (msg : String) : Bool :=
  strContains msg "429" || strContains msg "Quota exceeded"
    || strContains (pyLower msg) "rate limit"

/-- Outcome of one attempt of a remote call: a value, or an exception
carrying its message string. -/
inductive CallResult (α : Type) where
  | ok (v : α)
  | err (msg : String)
deriving DecidableEq, Repr

/-- The backoff schedule shared by `open_sheet_cached` (src/app.py line 92)
and `append_rows_batch` (line 141). -/
def backoffs : List Nat := [0, 1, 2, 4, 8, 16]

/-- One pass of the `for wait in backoffs` retry loop shared by
`open_sheet_cached` (src/app.py lines 94-105) and `append_rows_batch`
(lines 143-162). `f k` is the outcome of the k-th attempt (0-based);
the result pairs the list of delays taken before each attempt made
(a delay of 0 sleeps for no time, matching `if wait: time.sleep(wait)`)
with either the returned value or the exception finally raised.
`last_err` mirrors the Python variable; the loop raises it (possibly the
initial `None`) when the schedule is exhausted. -/
def retryAux {α : Type} (f : Nat → CallResult α) :
    List Nat → Nat → Option String → List Nat × Except (Option String) α
  | [], _, last_err => ([], Except.error last_err)
  | wait :: rest, attempt, _ =>
    match f attempt with
    | CallResult.ok v => ([wait], Except.ok v)
    | CallResult.err m =>
      if is_rate_limit_error m then
        let r := retryAux f rest (attempt + 1) (some m)
        (wait :: r.1, r.2)
      else ([wait], Except.error (some m))

/-- The full retry loop over the configured schedule, as run by both
`open_sheet_cached` and `append_rows_batch`. -/
def retryCall {α : Type} (f : Nat → CallResult α) :
    List Nat × Except (Option String) α :=
  retryAux f backoffs 0 none

/-- One cell of an output row: the rows sent to `values_append` mix
strings and the integer quantity (src/app.py lines 364-373). -/
inductive Cell where
  | str (s : String)
  | int (n : Int)
deriving DecidableEq, Repr

/-- The row-building loop of the submit handler (src/app.py lines 362-373):
one row per task entry, in form-state order, with the shared timestamp,
local date and submission id computed once before the loop. -/
def buildRows (timestamp_utc date_local employee_name submission_id : String)
    (tasks : List TaskEntry) : List (List Cell) :=
  tasks.map fun t =>
    [Cell.str timestamp_utc,
     Cell.str date_local,
     Cell.str (pyStrip employee_name),
     Cell.str t.task_category,
     Cell.int t.quantity,
     Cell.str (pyStrip t.client_notes),
     Cell.str (pyStrip t.task_other_text),
     Cell.str submission_id]

/-- A user-visible effect of the submit handler. `appendRows rows` is the
single `values_append` remote call with body `rows`; `showErrors` is the
error list displayed before `st.stop()`. -/
inductive Effect where
  | showErrors (errs : List String)
  | appendRows (rows : List (List Cell))
deriving DecidableEq, Repr

/-- The submit handler (src/app.py lines 350-376) up to the remote call:
validates the (stripped, as on line 281) name and the task list; on any
error it displays the errors and stops with the form state untouched,
otherwise it issues the batch append of the built rows. Returns the
effects performed and the resulting form state. -/
def submitStep (timestamp_utc date_local submission_id : String)
    (rawName : Option String) (tasks : List TaskEntry) :
    List Effect × List TaskEntry :=
  let employee_name := pyStrip (rawName.getD "")
  let errs := validate (some employee_name) (tasks.map TaskEntry.toRaw)
  if errs = [] then
    ([Effect.appendRows
        (buildRows timestamp_utc date_local employee_name submission_id tasks)],
     tasks)
  else
    ([Effect.showErrors errs], tasks)

/-- The default entry `reset_form` and `add_task_row` create
(src/app.py lines 219-224 and 287-289): first catalog option, quantity 1,
blank notes. The app guarantees `task_options` is non-empty (the loader
fails on an empty catalog), so `headD` never falls back. -/
def defaultEntry (task_options : List String) : TaskEntry :=
  { task_category := task_options.headD ""
    quantity := 1
    client_notes := ""
    task_other_text := "" }

/-- `reset_form` (src/app.py lines 203-224), restricted to the form state
it produces: a single default entry. -/
def reset_form (task_options : List String) : List TaskEntry :=
  [defaultEntry task_options]

/-- `add_task_row` (src/app.py lines 286-289): appends one default entry. -/
def add_task_row (task_options : List String) (tasks : List TaskEntry) :
    List TaskEntry :=
  tasks ++ [defaultEntry task_options]

/-- `remove_task_row` (src/app.py lines 292-295): a no-op when at most one
entry remains, otherwise `list.pop(index)`. -/
def remove_task_row (tasks : List TaskEntry) (index : Nat) : List TaskEntry :=
  if tasks.length ≤ 1 then tasks else tasks.eraseIdx index

/-- The operations the UI can perform on the form state: the add button,
a remove button, and the reset applied on first load or after a
successful submission. -/
inductive FormOp where
  | add
  | remove (index : Nat)
  | reset
deriving DecidableEq, Repr

/-- Applies one form-state operation. -/
def applyOp (task_options : List String) (tasks : List TaskEntry) :
    FormOp → List TaskEntry
  | FormOp.add => add_task_row task_options tasks
  | FormOp.remove i => remove_task_row tasks i
  | FormOp.reset => reset_form task_options

/-! ### Helper lemmas about the validator -/

lemma validate_of_ne_nil (employee : Option String) (tasks : List RawEntry)
    (h : tasks ≠ []) :
    validate employee tasks =
      (if pyStrip (employee.getD "") = "" then ["Name is required."] else [])
        ++ tasksErrors 1 tasks := by
  simp [validate, h]

lemma mem_tasksErrors_of_mem_entry {m : String} (tasks : List RawEntry) :
    ∀ (k i : Nat) (t : RawEntry), tasks[i]? = some t →
      m ∈ entryErrors (k + i) t → m ∈ tasksErrors k tasks := by
  induction tasks with
  | nil => intro k i t h _; simp at h
  | cons t' rest ih =>
    intro k i t h hm
    cases i with
    | zero =>
      simp only [List.getElem?_cons_zero, Option.some.injEq] at h
      subst h
      exact List.mem_append.mpr (Or.inl (by simpa using hm))
    | succ j =>
      have hrest : rest[j]? = some t := by simpa using h
      have harith : k + (j + 1) = (k + 1) + j := by omega
      rw [harith] at hm
      exact List.mem_append.mpr (Or.inr (ih (k + 1) j t hrest hm))

lemma mem_entryErrors_cat (idx : Nat) (t : RawEntry)
    (h : pyStrip (t.task_category.getD "") = "") :
    s!"Task {idx}: task category is required." ∈ entryErrors idx t := by
  simp [entryErrors, h]

lemma mem_entryErrors_qtyLow (idx : Nat) (t : RawEntry)
    (h : t.quantity.getD 0 < QTY_MIN) :
    s!"Task {idx}: quantity must be at least {QTY_MIN}." ∈ entryErrors idx t := by
  simp [entryErrors, h]

lemma mem_entryErrors_qtyHigh (idx : Nat) (t : RawEntry)
    (h : QTY_MAX < t.quantity.getD 0) :
    s!"Task {idx}: quantity must be {QTY_MAX} or less." ∈ entryErrors idx t := by
  simp [entryErrors, h]

lemma mem_entryErrors_notes (idx : Nat) (t : RawEntry)
    (h : (pyStrip (t.client_notes.getD "")).length < 3) :
    s!"Task {idx}: Client / Project is required (min 3 characters)." ∈
      entryErrors idx t := by
  simp [entryErrors, h]

lemma mem_entryErrors_other (idx : Nat) (t : RawEntry)
    (hcat : pyStrip (t.task_category.getD "") = "Other")
    (h : (pyStrip (t.task_other_text.getD "")).length < 3) :
    s!"Task {idx}: description is required for \x27Other\x27 (min 3 characters)." ∈
      entryErrors idx t := by
  simp [entryErrors, hcat, h]

lemma entryErrors_eq_nil (idx : Nat) (t : RawEntry)
    (hcat : pyStrip (t.task_category.getD "") ≠ "")
    (hq : ∃ n, t.quantity = some n ∧ 1 ≤ n ∧ n ≤ 200)
    (hnotes : 3 ≤ (pyStrip (t.client_notes.getD "")).length)
    (hother : pyStrip (t.task_category.getD "") = "Other" →
      3 ≤ (pyStrip (t.task_other_text.getD "")).length) :
    entryErrors idx t = [] := by
  obtain ⟨n, hn, h1, h2⟩ := hq
  simp only [entryErrors, hn, Option.getD_some, QTY_MIN, QTY_MAX]
  rw [if_neg hcat, if_neg (by omega), if_neg (by omega),
    if_neg (by omega), if_neg (by rintro ⟨hc, hl⟩; exact absurd hl (by have := hother hc; omega))]
  simp

lemma tasksErrors_eq_nil (tasks : List RawEntry)
    (h : ∀ t ∈ tasks,
      pyStrip (t.task_category.getD "") ≠ "" ∧
      (∃ n, t.quantity = some n ∧ 1 ≤ n ∧ n ≤ 200) ∧
      3 ≤ (pyStrip (t.client_notes.getD "")).length ∧
      (pyStrip (t.task_category.getD "") = "Other" →
        3 ≤ (pyStrip (t.task_other_text.getD "")).length)) :
    ∀ k, tasksErrors k tasks = [] := by
  induction tasks with
  | nil => intro k; rfl
  | cons t rest ih =>
    intro k
    obtain ⟨h1, h2, h3, h4⟩ := h t (by simp)
    have hrest := ih (fun u hu => h u (by simp [hu]))
    simp [tasksErrors, entryErrors_eq_nil k t h1 h2 h3 h4, hrest]

/-- C2: if the employee name is non-empty after trimming, the form state
is non-empty, and every entry has a non-empty category, an integer
quantity within [1, 200], client notes of at least 3 trimmed characters,
and — whenever the category is "Other" — a description of at least 3
trimmed characters, then `validate` returns the empty error list. -/
theorem validator_accepts_valid (employee : String) (tasks : List RawEntry)
    (hemp : pyStrip employee ≠ "") (hne : tasks ≠ [])
    (h : ∀ t ∈ tasks,
      pyStrip (t.task_category.getD "") ≠ "" ∧
      (∃ n, t.quantity = some n ∧ 1 ≤ n ∧ n ≤ 200) ∧
      3 ≤ (pyStrip (t.client_notes.getD "")).length ∧
      (pyStrip (t.task_category.getD "") = "Other" →
        3 ≤ (pyStrip (t.task_other_text.getD "")).length)) :
    validate (some employee) tasks = [] := by
  rw [validate_of_ne_nil _ _ hne]
  simp only [Option.getD_some]
  rw [if_neg hemp, tasksErrors_eq_nil tasks h 1]
  rfl

/-- Witness for C2 at a concrete valid submission. -/
theorem validator_accepts_valid_witness :
    validate (some "Jane Doe")
      [⟨some "Pressing", some 5, some "Villa A", some ""⟩] = [] :=
  validator_accepts_valid "Jane Doe"
    [⟨some "Pressing", some 5, some "Villa A", some ""⟩]
    (by decide) (by decide)
    (by
      intro t ht
      simp only [List.mem_singleton] at ht
      subst ht
      exact ⟨by decide, ⟨5, rfl, by decide, by decide⟩, by decide, by decide⟩)

lemma mem_validate_of_mem_entry (employee : Option String) {m : String}
    (tasks : List RawEntry) (i : Nat) (t : RawEntry)
    (hget : tasks[i]? = some t) (hm : m ∈ entryErrors (i + 1) t) :
    m ∈ validate employee tasks := by
  have hne : tasks ≠ [] := by intro he; rw [he] at hget; simp at hget
  rw [validate_of_ne_nil _ _ hne]
  refine List.mem_append.mpr (Or.inr ?_)
  have harith : (1 : Nat) + i = i + 1 := by omega
  exact mem_tasksErrors_of_mem_entry tasks 1 i t hget (by rwa [harith])

lemma tasksErrors_eq_flatMap (tasks : List RawEntry) :
    ∀ k, tasksErrors k tasks =
      (List.enumFrom k tasks).flatMap (fun p => entryErrors p.1 p.2) := by
  induction tasks with
  | nil => intro k; rfl
  | cons t rest ih => intro k; simp [tasksErrors, List.enumFrom, ih]

/-- C3: whenever the name is blank or some entry misses a required field,
`validate` returns a message naming the 1-based index of that entry (or the
name); and the rules run per entry in entry order with the fixed in-entry
order category, quantity lower bound, quantity upper bound, client notes,
Other-description — stated as an equation giving the full ordered output. -/
theorem validator_flags_missing_fields (employee : String)
    (tasks : List RawEntry) :
    (pyStrip employee = "" →
      "Name is required." ∈ validate (some employee) tasks)
  ∧ (tasks = [] → validate (some employee) tasks ≠ [])
  ∧ (∀ i t, tasks[i]? = some t → pyStrip (t.task_category.getD "") = "" →
      s!"Task {i + 1}: task category is required." ∈
        validate (some employee) tasks)
  ∧ (∀ i t, tasks[i]? = some t → t.quantity.getD 0 < QTY_MIN →
      s!"Task {i + 1}: quantity must be at least {QTY_MIN}." ∈
        validate (some employee) tasks)
  ∧ (∀ i t, tasks[i]? = some t → QTY_MAX < t.quantity.getD 0 →
      s!"Task {i + 1}: quantity must be {QTY_MAX} or less." ∈
        validate (some employee) tasks)
  ∧ (∀ i t, tasks[i]? = some t →
      (pyStrip (t.client_notes.getD "")).length < 3 →
      s!"Task {i + 1}: Client / Project is required (min 3 characters)." ∈
        validate (some employee) tasks)
  ∧ (∀ i t, tasks[i]? = some t →
      pyStrip (t.task_category.getD "") = "Other" →
      (pyStrip (t.task_other_text.getD "")).length < 3 →
      s!"Task {i + 1}: description is required for \x27Other\x27 (min 3 characters)." ∈
        validate (some employee) tasks)
  ∧ (tasks ≠ [] → validate (some employee) tasks =
      (if pyStrip employee = "" then ["Name is required."] else [])
        ++ (List.enumFrom 1 tasks).flatMap (fun p =>
          let i := p.1
          let t := p.2
          (if pyStrip (t.task_category.getD "") = "" then
            [s!"Task {i}: task category is required."] else [])
          ++ (if t.quantity.getD 0 < QTY_MIN then
            [s!"Task {i}: quantity must be at least {QTY_MIN}."] else [])
          ++ (if t.quantity.getD 0 > QTY_MAX then
            [s!"Task {i}: quantity must be {QTY_MAX} or less."] else [])
          ++ (if (pyStrip (t.client_notes.getD "")).length < 3 then
            [s!"Task {i}: Client / Project is required (min 3 characters)."] else [])
          ++ (if pyStrip (t.task_category.getD "") = "Other" ∧
                (pyStrip (t.task_other_text.getD "")).length < 3 then
            [s!"Task {i}: description is required for \x27Other\x27 (min 3 characters)."]
            else []))) := by
  refine ⟨?_, ?_, ?_, ?_, ?_, ?_, ?_, ?_⟩
  · intro h
    by_cases he : tasks = [] <;> simp [validate, he, h]
  · intro he
    subst he
    by_cases hn : pyStrip employee = "" <;> simp [validate, hn]
  · intro i t hget hcond
    exact mem_validate_of_mem_entry _ tasks i t hget
      (mem_entryErrors_cat (i + 1) t hcond)
  · intro i t hget hcond
    exact mem_validate_of_mem_entry _ tasks i t hget
      (mem_entryErrors_qtyLow (i + 1) t hcond)
  · intro i t hget hcond
    exact mem_validate_of_mem_entry _ tasks i t hget
      (mem_entryErrors_qtyHigh (i + 1) t hcond)
  · intro i t hget hcond
    exact mem_validate_of_mem_entry _ tasks i t hget
      (mem_entryErrors_notes (i + 1) t hcond)
  · intro i t hget hcat hcond
    exact mem_validate_of_mem_entry _ tasks i t hget
      (mem_entryErrors_other (i + 1) t hcat hcond)
  · intro hne
    rw [validate_of_ne_nil _ _ hne, tasksErrors_eq_flatMap tasks 1]
    rfl

/-- Witness for C3: an entry with a blank category is flagged with its
1-based index. -/
theorem validator_flags_missing_fields_witness :
    s!"Task {0 + 1}: task category is required." ∈
      validate (some "Jane") [⟨some " ", some 5, some "Villa", none⟩] :=
  (validator_flags_missing_fields "Jane"
      [⟨some " ", some 5, some "Villa", none⟩]).2.2.1 0
    ⟨some " ", some 5, some "Villa", none⟩ rfl (by decide)

/-- C4: the quantity bounds are inclusive — `validate` rejects quantities
0 and 201 with the corresponding error for that entry and accepts 1 and
200, producing neither quantity error for that entry. -/
theorem quantity_bounds_inclusive (employee : Option String) (t : RawEntry) :
    (t.quantity = some 0 →
      "Task 1: quantity must be at least 1." ∈ validate employee [t])
  ∧ (t.quantity = some 201 →
      "Task 1: quantity must be 200 or less." ∈ validate employee [t])
  ∧ (t.quantity = some 1 →
      "Task 1: quantity must be at least 1." ∉ validate employee [t] ∧
      "Task 1: quantity must be 200 or less." ∉ validate employee [t])
  ∧ (t.quantity = some 200 →
      "Task 1: quantity must be at least 1." ∉ validate employee [t] ∧
      "Task 1: quantity must be 200 or less." ∉ validate employee [t]) := by
  refine ⟨?_, ?_, ?_, ?_⟩
  · intro hq
    exact mem_validate_of_mem_entry employee [t] 0 t rfl
      (mem_entryErrors_qtyLow (0 + 1) t (by simp [hq, QTY_MIN]))
  · intro hq
    exact mem_validate_of_mem_entry employee [t] 0 t rfl
      (mem_entryErrors_qtyHigh (0 + 1) t (by simp [hq, QTY_MAX]))
  · intro hq
    constructor <;>
    · rw [validate_of_ne_nil _ _ (by simp)]
      simp only [tasksErrors, entryErrors, hq, Option.getD_some,
        QTY_MIN, QTY_MAX, List.append_nil]
      split_ifs <;> first | omega | decide
  · intro hq
    constructor <;>
    · rw [validate_of_ne_nil _ _ (by simp)]
      simp only [tasksErrors, entryErrors, hq, Option.getD_some,
        QTY_MIN, QTY_MAX, List.append_nil]
      split_ifs <;> first | omega | decide

/-- Witness for C4: quantity 0 on an otherwise arbitrary entry is
rejected with the lower-bound error. -/
theorem quantity_bounds_inclusive_witness :
    "Task 1: quantity must be at least 1." ∈
      validate (some "Jane") [⟨some "Wash", some 0, some "abc", none⟩] :=
  (quantity_bounds_inclusive (some "Jane")
    ⟨some "Wash", some 0, some "abc", none⟩).1 rfl

/-- C10: `validate` is total over arbitrary entry dictionaries — an entry
whose quantity is absent, `None`, or unparseable (all modelled by
`quantity = none`) is coerced to 0, so instead of failing `validate`
reports the quantity-lower-bound error for that entry. -/
theorem validate_totalizes_bad_quantity (employee : Option String)
    (tasks : List RawEntry) (i : Nat) (t : RawEntry)
    (hget : tasks[i]? = some t) (hq : t.quantity = none) :
    s!"Task {i + 1}: quantity must be at least {QTY_MIN}." ∈
      validate employee tasks := by
  have hne : tasks ≠ [] := by
    intro he; rw [he] at hget; simp at hget
  rw [validate_of_ne_nil _ _ hne]
  refine List.mem_append.mpr (Or.inr ?_)
  have hm : s!"Task {i + 1}: quantity must be at least {QTY_MIN}." ∈
      entryErrors (1 + i) t := by
    have : (1 : Nat) + i = i + 1 := by omega
    rw [this]
    exact mem_entryErrors_qtyLow (i + 1) t (by simp [hq, QTY_MIN])
  exact mem_tasksErrors_of_mem_entry tasks 1 i t hget hm

/-- Witness for C10: an entry with an unparseable quantity. -/
theorem validate_totalizes_bad_quantity_witness :
    s!"Task {0 + 1}: quantity must be at least {QTY_MIN}." ∈
      validate (some "Jane") [⟨some "Wash", none, some "Villa A", none⟩] :=
  validate_totalizes_bad_quantity (some "Jane")
    [⟨some "Wash", none, some "Villa A", none⟩] 0
    ⟨some "Wash", none, some "Villa A", none⟩ rfl rfl

/-- C1: for every form state that passes validation, submitting emits
exactly one row per task entry, in form-state order, each row being the
8 fields [timestamp_utc, date_local, employee_name, task_category,
quantity, client_notes, task_other_text, submission_id] in that order;
the submission id and the timestamp, computed once before the loop, are
shared by all rows. -/
theorem submission_rows_shape (ts d emp sid : String) (tasks : List TaskEntry)
    (_hv : validate (some emp) (tasks.map TaskEntry.toRaw) = []) :
    (buildRows ts d emp sid tasks).length = tasks.length
  ∧ (∀ (i : Nat) (t : TaskEntry), tasks[i]? = some t →
      (buildRows ts d emp sid tasks)[i]? =
      some [Cell.str ts, Cell.str d, Cell.str (pyStrip emp),
        Cell.str t.task_category, Cell.int t.quantity,
        Cell.str (pyStrip t.client_notes),
        Cell.str (pyStrip t.task_other_text), Cell.str sid])
  ∧ (∀ r ∈ buildRows ts d emp sid tasks,
      r.length = 8 ∧ r[0]? = some (Cell.str ts) ∧
        r[7]? = some (Cell.str sid)) := by
  refine ⟨by simp [buildRows], ?_, ?_⟩
  · intro i t hget
    simp [buildRows, hget]
  · intro r hr
    simp only [buildRows, List.mem_map] at hr
    obtain ⟨t, ht, rfl⟩ := hr
    exact ⟨rfl, rfl, rfl⟩

/-- Witness for C1 at a concrete valid submission of one entry. -/
theorem submission_rows_shape_witness :
    (buildRows "2025-01-01T00:00:00+00:00" "2025-01-01" "Jane Doe"
      "abc12345" [⟨"Pressing", 5, "Villa A", ""⟩]).length = 1 :=
  (submission_rows_shape "2025-01-01T00:00:00+00:00" "2025-01-01"
    "Jane Doe" "abc12345" [⟨"Pressing", 5, "Villa A", ""⟩] (by decide)).1

/-- C5 counterexample: with the source column ["Other", "Pressing"] the
loaded catalog is returned unchanged, so its last element is "Pressing",
not "Other"; with ["Other", "Other"] the catalog contains "Other" twice.
The loader only appends "Other" when it is absent and never removes
duplicates. -/
theorem catalog_other_counterexample :
    load_task_options "Config" ["Other", "Pressing"] =
      Except.ok ["Other", "Pressing"]
  ∧ (["Other", "Pressing"] : List String).getLast? = some "Pressing"
  ∧ load_task_options "Config" ["Other", "Other"] =
      Except.ok ["Other", "Other"]
  ∧ (["Other", "Other"] : List String).count "Other" = 2 :=
  ⟨rfl, rfl, rfl, by decide⟩

/-- C5 amended: every successfully loaded catalog contains "Other"; when
the trimmed blank-filtered source column lacks "Other", the loader
appends it exactly once, making it the unique final element; when the
source already contains "Other", the catalog is the source list
unchanged (so "Other" may be non-final or duplicated). -/
theorem catalog_other_amended (tab : String) (col : List String)
    (l : List String) (h : load_task_options tab col = Except.ok l) :
    "Other" ∈ l
  ∧ ("Other" ∉ trimmedColumn col →
      l = trimmedColumn col ++ ["Other"] ∧ l.getLast? = some "Other" ∧
        l.count "Other" = 1)
  ∧ ("Other" ∈ trimmedColumn col → l = trimmedColumn col) := by
  by_cases hnil : trimmedColumn col = []
  · simp [load_task_options, hnil] at h
  by_cases hmem : "Other" ∈ trimmedColumn col
  · have hl : l = trimmedColumn col := by
      simp [load_task_options, hnil, hmem] at h
      exact h.symm
    exact ⟨hl ▸ hmem, fun habs => absurd hmem habs, fun _ => hl⟩
  · have hl : l = trimmedColumn col ++ ["Other"] := by
      simp [load_task_options, hnil, hmem] at h
      exact h.symm
    refine ⟨by simp [hl], fun _ => ⟨hl, ?_, ?_⟩, fun hm => absurd hm hmem⟩
    · rw [hl]
      exact List.getLast?_concat _
    · rw [hl, List.count_append]
      rw [List.count_eq_zero.mpr hmem]
      rfl

/-- Witness for C5 amended, on a column that lacks "Other". -/
theorem catalog_other_amended_witness :
    "Other" ∈ ["Wash", "Other"] :=
  (catalog_other_amended "Config" ["Wash"] ["Wash", "Other"] rfl).1

/-- C6: the loader trims each cell of the first column, discards cells
blank after trimming, preserves source order, performs no deduplication
except appending "Other" once when it is missing, and fails when the
list before the append is empty. -/
theorem catalog_loader_contract (tab : String) (col : List String) :
    trimmedColumn col = (col.map pyStrip).filter (fun s => s ≠ "")
  ∧ (trimmedColumn col = [] →
      load_task_options tab col =
        Except.error s!"No tasks found in \x27{tab}\x27 column A.")
  ∧ (trimmedColumn col ≠ [] →
      load_task_options tab col = Except.ok
        (if "Other" ∈ trimmedColumn col then trimmedColumn col
         else trimmedColumn col ++ ["Other"])) := by
  refine ⟨?_, ?_, ?_⟩
  · induction col with
    | nil => rfl
    | cons x xs ih =>
      by_cases hx : pyStrip x = "" <;>
        simp [trimmedColumn, hx, ih.symm] <;> simp [trimmedColumn] at ih <;>
        exact ih
  · intro hnil
    simp [load_task_options, hnil]
  · intro hnil
    by_cases hmem : "Other" ∈ trimmedColumn col <;>
      simp [load_task_options, hnil, hmem]

/-- Witness for C6: a column with padding and a blank cell. -/
theorem catalog_loader_contract_witness :
    load_task_options "Config" [" Wash ", "", "Press"] =
      Except.ok ["Wash", "Press", "Other"] := by
  rw [(catalog_loader_contract "Config" [" Wash ", "", "Press"]).2.2
    (by decide)]
  rfl

lemma retryAux_fail_fast {α : Type} (f : Nat → CallResult α) (m : String)
    (hm : is_rate_limit_error m = false) :
    ∀ (ws : List Nat) (a j : Nat) (last : Option String),
      j < ws.length →
      (∀ k, k < j → ∃ mk, f (a + k) = CallResult.err mk ∧
        is_rate_limit_error mk = true) →
      f (a + j) = CallResult.err m →
      retryAux f ws a last = (ws.take (j + 1), Except.error (some m)) := by
  intro ws
  induction ws with
  | nil => intro a j last hj _ _; simp at hj
  | cons w rest ih =>
    intro a j last hj hpre hfj
    cases j with
    | zero =>
      have hfa : f a = CallResult.err m := by simpa using hfj
      simp [retryAux, hfa, hm]
    | succ i =>
      obtain ⟨m0, hf0, hr0⟩ := hpre 0 (by omega)
      have hfa : f a = CallResult.err m0 := by simpa using hf0
      have hrec := ih (a + 1) i (some m0) (by simpa using hj)
        (fun k hk => by
          obtain ⟨mk, h1, h2⟩ := hpre (k + 1) (by omega)
          exact ⟨mk, by rw [show a + 1 + k = a + (k + 1) by omega]; exact h1, h2⟩)
        (by rw [show a + 1 + i = a + (i + 1) by omega]; exact hfj)
      simp [retryAux, hfa, hr0, hrec]

/-- C7: behavior of the retry loop shared by open and append. Rate-limit
failures on attempts 1 and 2 followed by success on attempt 3 succeed
with delays 0, 1, 2 taken before those attempts and no error surfaced;
six consecutive rate-limit failures take delays 0, 1, 2, 4, 8, 16 and
raise the last rate-limit error once the schedule is exhausted; and a
non-rate-limit failure on any attempt — after any run of rate-limit
failures before it — is raised immediately: only the delays before the
attempts actually made are taken (the first j+1 backoffs for a failure
on attempt j), with no further attempts and no further delay. -/
theorem retry_policy_behavior :
    (∀ (α : Type) (f : Nat → CallResult α) (v : α) (m0 m1 : String),
      f 0 = CallResult.err m0 → is_rate_limit_error m0 = true →
      f 1 = CallResult.err m1 → is_rate_limit_error m1 = true →
      f 2 = CallResult.ok v →
      retryCall f = ([0, 1, 2], Except.ok v))
  ∧ (∀ (α : Type) (f : Nat → CallResult α) (ms : Nat → String),
      (∀ k, k < 6 → f k = CallResult.err (ms k)) →
      (∀ k, k < 6 → is_rate_limit_error (ms k) = true) →
      retryCall f = ([0, 1, 2, 4, 8, 16], Except.error (some (ms 5))))
  ∧ (∀ (α : Type) (f : Nat → CallResult α) (ms : Nat → String)
        (m : String) (j : Nat),
      j < 6 →
      (∀ k, k < j → f k = CallResult.err (ms k)) →
      (∀ k, k < j → is_rate_limit_error (ms k) = true) →
      f j = CallResult.err m → is_rate_limit_error m = false →
      retryCall f = (backoffs.take (j + 1), Except.error (some m))) := by
  refine ⟨?_, ?_, ?_⟩
  · intro α f v m0 m1 h0 hr0 h1 hr1 h2
    simp [retryCall, backoffs, retryAux, h0, hr0, h1, hr1, h2]
  · intro α f ms hf hr
    have h0 := hf 0 (by omega); have r0 := hr 0 (by omega)
    have h1 := hf 1 (by omega); have r1 := hr 1 (by omega)
    have h2 := hf 2 (by omega); have r2 := hr 2 (by omega)
    have h3 := hf 3 (by omega); have r3 := hr 3 (by omega)
    have h4 := hf 4 (by omega); have r4 := hr 4 (by omega)
    have h5 := hf 5 (by omega); have r5 := hr 5 (by omega)
    simp [retryCall, backoffs, retryAux,
      h0, r0, h1, r1, h2, r2, h3, r3, h4, r4, h5, r5]
  · intro α f ms m j hj hf hr hfj hm
    have h := retryAux_fail_fast f m hm backoffs 0 j none
      (by simp [backoffs]; omega)
      (fun k hk => ⟨ms k, by simpa using hf k hk, hr k hk⟩)
      (by simpa using hfj)
    simpa [retryCall] using h

/-- Witness for C7: one rate-limited attempt followed by a permission
error on the second attempt raises that error at once, after only the
delays 0 and 1. -/
theorem retry_policy_behavior_witness :
    retryCall (fun k => if k = 0 then (CallResult.err "429" : CallResult Nat)
      else CallResult.err "permission denied")
      = ([0, 1], Except.error (some "permission denied")) :=
  retry_policy_behavior.2.2 Nat
    (fun k => if k = 0 then CallResult.err "429"
      else CallResult.err "permission denied")
    (fun _ => "429") "permission denied" 1 (by omega)
    (fun k hk => by
      have hk0 : k = 0 := by omega
      subst hk0
      rfl)
    (fun k hk => by
      have hk0 : k = 0 := by omega
      subst hk0
      decide)
    rfl (by decide)

/-- C8: whenever `validate` rejects the submitted name and tasks, the
submit handler surfaces exactly those errors, issues no remote append
call, and leaves the form state unchanged. -/
theorem invalid_submission_aborts (ts d sid : String)
    (rawName : Option String) (tasks : List TaskEntry)
    (h : validate (some (pyStrip (rawName.getD "")))
      (tasks.map TaskEntry.toRaw) ≠ []) :
    submitStep ts d sid rawName tasks =
      ([Effect.showErrors (validate (some (pyStrip (rawName.getD "")))
        (tasks.map TaskEntry.toRaw))], tasks)
  ∧ ∀ rows, Effect.appendRows rows ∉ (submitStep ts d sid rawName tasks).1 := by
  have he : submitStep ts d sid rawName tasks =
      ([Effect.showErrors (validate (some (pyStrip (rawName.getD "")))
        (tasks.map TaskEntry.toRaw))], tasks) := by
    simp [submitStep, h]
  refine ⟨he, ?_⟩
  intro rows
  rw [he]
  simp

/-- Witness for C8: submitting with no name and no tasks aborts with the
two validation errors and without touching the form. -/
theorem invalid_submission_aborts_witness :
    submitStep "t" "d" "s" none [] =
      ([Effect.showErrors (validate (some (pyStrip "")) [])], []) :=
  (invalid_submission_aborts "t" "d" "s" none [] (by decide)).1

lemma applyOp_keeps_nonempty (opts : List String) (tasks : List TaskEntry)
    (op : FormOp) (h : 1 ≤ tasks.length) :
    1 ≤ (applyOp opts tasks op).length := by
  cases op with
  | add => simp [applyOp, add_task_row]
  | reset => simp [applyOp, reset_form]
  | remove i =>
    simp only [applyOp, remove_task_row]
    split
    · exact h
    · next hlen =>
      by_cases hi : i < tasks.length
      · rw [List.length_eraseIdx_of_lt hi]
        omega
      · rw [List.eraseIdx_of_length_le (by omega)]
        exact h

/-- C9: the form state always keeps at least one task entry — the initial
and post-reset state is exactly one default entry, adding a row grows the
list by one, removing is a no-op when only one entry remains, and no
sequence of UI operations starting from the reset state empties the
list. -/
theorem formstate_never_empty (opts : List String) (ops : List FormOp) :
    (reset_form opts).length = 1
  ∧ (∀ tasks, (add_task_row opts tasks).length = tasks.length + 1)
  ∧ (∀ tasks i, tasks.length = 1 → remove_task_row tasks i = tasks)
  ∧ 1 ≤ (ops.foldl (applyOp opts) (reset_form opts)).length := by
  refine ⟨rfl, fun tasks => by simp [add_task_row], ?_, ?_⟩
  · intro tasks i h1
    simp [remove_task_row, h1]
  · have inv : ∀ (l : List FormOp) (ts : List TaskEntry), 1 ≤ ts.length →
        1 ≤ (l.foldl (applyOp opts) ts).length := by
      intro l
      induction l with
      | nil => intro ts h; simpa using h
      | cons op rest ih =>
        intro ts h
        exact ih _ (applyOp_keeps_nonempty opts ts op h)
    exact inv ops _ (by simp [reset_form])

/-- Witness for C9: removing the only row of a one-row form changes
nothing. -/
theorem formstate_never_empty_witness :
    remove_task_row [defaultEntry ["Wash"]] 0 = [defaultEntry ["Wash"]] :=
  (formstate_never_empty ["Wash"] []).2.2.1 [defaultEntry ["Wash"]] 0 rfl

end DailyLog
